import Mathlib

/-!
Verification development for the jimeng-api generation-task orchestration and
response-normalization layer (`src/api/controllers/async-tasks.ts`, the image-URL
extraction helper, and the image-count checks of `src/api/routes/async-tasks.ts`).

The TypeScript code is shallowly embedded: optional / possibly-absent JSON fields
become `Option`, JavaScript string truthiness (`""` and absent are falsy) is made
explicit, thrown exceptions become `Except Err`, and the effectful upload loops are
modelled as pure folds over the per-image outcomes the underlying upload primitive
would produce.
-/

namespace JimengSpec

/-- Exception kinds thrown by the controller layer.  `validation` models the route
layer's thrown `Error`s, `uploadFailure` models `APIException` raised on a failed
image upload, `submissionFailure` models the `APIException` with message
`记录ID不存在` raised when a submission response has no usable history id,
`notFound` models the `APIException` with message `任务不存在`, and `typeError`
models the JavaScript `TypeError` raised when a property of `undefined` is read. -/
inductive Err where
  | validation (msg : String)
  | uploadFailure (msg : String)
  | submissionFailure
  | notFound
  | typeError
deriving DecidableEq

/-- JavaScript truthiness filter for an optional string field: an absent field and
the empty string are falsy, every other string is returned unchanged. -/
def truthyStr : Option String → Option String
  | some s => if s = "" then none else some s
  | none => none

/-- Boolean form of JavaScript truthiness for an optional string. -/
def jsTruthy (o : Option String) : Bool :=
  (truthyStr o).isSome

/-- Character-level model of `url.replace(/\\u0026/g, '&')`: every occurrence of
the six-character sequence `&` is replaced, left to right, by `&`. -/
def unesc : List Char → List Char
  | '\\' :: 'u' :: '0' :: '0' :: '2' :: '6' :: rest => '&' :: unesc rest
  | c :: rest => c :: unesc rest
  | [] => []

/-- String form of the vendor ampersand un-escaping. -/
def unescapeAmp (s : String) : String := ⟨unesc s.data⟩

/-- Tests whether a character list begins with the escaped ampersand sequence
`&`. -/
def headMatchesEsc : List Char → Bool
  | c1 :: c2 :: c3 :: c4 :: c5 :: c6 :: _ =>
      c1 == '\\' && c2 == 'u' && c3 == '0' && c4 == '0' && c5 == '2' && c6 == '6'
  | _ => false

/-- Tests whether the escaped ampersand sequence `&` occurs anywhere in a
character list. -/
def hasEscSeq : List Char → Bool
  | [] => false
  | c :: rest => headMatchesEsc (c :: rest) || hasEscSeq rest

/-- First-match association lookup, the model of JavaScript object property access
on the parsed `cover_url_map`. -/
def assocLookup (k : String) : List (String × String) → Option String
  | [] => none
  | (k', v) :: rest => if k' = k then some v else assocLookup k rest

/-- One entry of `item.image.large_images`. -/
structure LargeImage where
  image_url : Option String
deriving DecidableEq

/-- The `item.image` object of a history response item. -/
structure ImageField where
  large_images : List LargeImage
deriving DecidableEq

/-- The `item.common_attr` object of a history response item: the short-lived
`cover_url` and the multi-size `cover_url_map` (modelled as its entry list in
object-key order). -/
structure CommonAttr where
  cover_url : Option String
  cover_url_map : Option (List (String × String))
deriving DecidableEq

/-- A history response item as consumed by the image-URL extraction helpers. -/
structure ResponseItem where
  image : Option ImageField
  common_attr : Option CommonAttr
deriving DecidableEq

/-- The caller-facing `ImageUrlInfo` projection of `image-utils`. -/
structure ImageUrlInfo where
  png : Option String
  webp : Option String
  webp_long : Option String
  webp_sizes : List (String × String)
deriving DecidableEq

/-- The raw `item?.image?.large_images?.[0]?.image_url` access chain. -/
def rawLargeImageUrl (item : ResponseItem) : Option String :=
  item.image.bind fun im => im.large_images.head?.bind fun li => li.image_url

/-- Embeds `extractImageUrl` of `image-utils`: the `large_images` PNG URL with
vendor-escaped ampersands un-escaped, or `null`. -/
def extractImageUrl (item : ResponseItem) : Option String :=
  match truthyStr (rawLargeImageUrl item) with
  | some u => some (unescapeAmp u)
  | none => none

/-- The fixed size-priority list `normalSizeKeys` of `extractImageUrlInfo`. -/
def normalSizeKeys : List String := ["2400", "1080", "720", "480", "360"]

/-- The `webp_sizes` population loop of `extractImageUrlInfo`: every truthy entry
of `cover_url_map`, un-escaped, in object-key order. -/
def buildWebpSizes (coverMap : List (String × String)) : List (String × String) :=
  coverMap.filterMap fun kv => if kv.2 = "" then none else some (kv.1, unescapeAmp kv.2)

/-- The `webp_long` selection loop of `extractImageUrlInfo`: the first priority key
whose `webp_sizes` entry is truthy wins (the loop `break`s at the first hit). -/
def pickWebpLong : List String → List (String × String) → Option String
  | [], _ => none
  | k :: ks, sizes =>
    match truthyStr (assocLookup k sizes) with
    | some v => some v
    | none => pickWebpLong ks sizes

/-- Embeds `extractImageUrlInfo` of `image-utils`. -/
def extractImageUrlInfo (item : ResponseItem) : ImageUrlInfo :=
  let png := match truthyStr (rawLargeImageUrl item) with
    | some u => some (unescapeAmp u)
    | none => none
  let webp := match truthyStr (item.common_attr.bind fun ca => ca.cover_url) with
    | some u => some (unescapeAmp u)
    | none => none
  match item.common_attr.bind fun ca => ca.cover_url_map with
  | some coverMap =>
    let sizes := buildWebpSizes coverMap
    ⟨png, webp, pickWebpLong normalSizeKeys sizes, sizes⟩
  | none => ⟨png, webp, none, []⟩

/-- Embeds `extractImageUrls` of `image-utils`: map every item through
`extractImageUrl` and drop the `null`s. -/
def extractImageUrls (itemList : List ResponseItem) : List String :=
  itemList.filterMap extractImageUrl

/-- The nested `item.video` fields inspected by `extractVideoUrl`, in the order the
code tries them. -/
structure VideoFields where
  transcoded_origin_url : Option String
  play_url : Option String
  download_url : Option String
  url : Option String
deriving DecidableEq

/-- A history response item as consumed by the video-URL extraction helper. -/
structure VideoItem where
  video : Option VideoFields
deriving DecidableEq

/-- Embeds `extractVideoUrl` of `image-utils`: `transcoded_video.origin.video_url`,
then `play_url`, then `download_url`, then `url`, each guarded by truthiness. -/
def extractVideoUrl (item : VideoItem) : Option String :=
  match truthyStr (item.video.bind fun v => v.transcoded_origin_url) with
  | some u => some u
  | none =>
    match truthyStr (item.video.bind fun v => v.play_url) with
    | some u => some u
    | none =>
      match truthyStr (item.video.bind fun v => v.download_url) with
      | some u => some u
      | none => truthyStr (item.video.bind fun v => v.url)

/-- The vendor history record consumed by `queryVideoTaskStatus`: raw numeric
`status`, optional `fail_code`, optional `task.finish_time`, optional `item_list`. -/
structure HistoryData where
  status : Int
  fail_code : Option Int
  task_finish_time : Option Int
  item_list : Option (List VideoItem)
deriving DecidableEq

/-- The normalized record returned by `queryVideoTaskStatus` (its `rawData` field
is omitted from the model). -/
structure VideoStatusResult where
  status : String
  statusCode : Int
  failCode : Int
  videoUrl : Option String
  finishTime : Int
deriving DecidableEq

/-- The video-URL extraction performed inside `queryVideoTaskStatus` once a record
exists: the CDN-host regular-expression match on the serialized response wins when
truthy, otherwise the structured extraction on the first `item_list` entry is
tried.  `regexMatch` is the (optional) result of that serialized-text match. -/
def videoUrlOf (regexMatch : Option String) (h : HistoryData) : Option String :=
  match truthyStr regexMatch with
  | some u => some u
  | none =>
    match h.item_list.getD [] with
    | [] => none
    | it :: _ => extractVideoUrl it

/-- Embeds `queryVideoTaskStatus`, as a function of the serialized-response regular
expression match and the (possibly absent) history record for the queried id. -/
def queryVideoTaskStatus (regexMatch : Option String) (record : Option HistoryData) :
    VideoStatusResult :=
  match record with
  | none => ⟨"processing", 20, 0, none, 0⟩
  | some h =>
    let videoUrl := videoUrlOf regexMatch h
    let st :=
      if h.status = 20 then "processing"
      else if h.status = 10 ∨ h.status = 30 then
        (if jsTruthy videoUrl then "completed" else "processing")
      else if h.status = 50 then
        (if jsTruthy videoUrl then "completed" else "failed")
      else "unknown"
    let st := if jsTruthy videoUrl then "completed" else st
    ⟨st, h.status, h.fail_code.getD 0, videoUrl, h.task_finish_time.getD 0⟩

/-- The vendor history record consumed by `queryImageTaskStatus`. -/
structure ImageTaskData where
  status : Int
  fail_code : Option Int
  item_list : Option (List ResponseItem)
deriving DecidableEq

/-- The record returned by `queryImageTaskStatus` (its `history_id`, `task_type`
and `raw_data` fields are constants or echoes and are omitted).  `results` is
`none` when the code leaves the `results` variable at `null`. -/
structure ImageStatusResult where
  status : Int
  fail_code : Option Int
  item_count : Nat
  results : Option (List String)
deriving DecidableEq

/-- Embeds `queryImageTaskStatus`, as a function of the (possibly absent) history
record for the queried id. -/
def queryImageTaskStatus (record : Option ImageTaskData) : Except Err ImageStatusResult :=
  match record with
  | none => .error Err.notFound
  | some t =>
    let itemList := t.item_list.getD []
    let results : Option (List String) :=
      match itemList with
      | [] => none
      | it :: _ =>
        if it.image.isSome then
          let imageUrls := extractImageUrls itemList
          if imageUrls.length > 0 then some imageUrls else none
        else none
    .ok ⟨t.status, t.fail_code, itemList.length, results⟩

/-- The `aigc_data` field of a submission response. -/
structure AigcData where
  history_record_id : Option String
deriving DecidableEq

/-- Embeds the history-id extraction of `createImageGenerationTask` and
`createImageCompositionTask`: `aigc_data?.history_record_id` with a falsy check,
throwing the record-id-missing `APIException` on a falsy id. -/
def submitExtractOpt (aigc : Option AigcData) : Except Err String :=
  match truthyStr (aigc.bind fun a => a.history_record_id) with
  | some s => .ok s
  | none => .error Err.submissionFailure

/-- Embeds the history-id extraction of `createVideoGenerationTask`:
`aigc_data.history_record_id` without optional chaining, so an absent `aigc_data`
raises a `TypeError` instead of the record-id-missing `APIException`. -/
def submitExtractVideo (aigc : Option AigcData) : Except Err String :=
  match aigc with
  | none => .error Err.typeError
  | some a =>
    match truthyStr a.history_record_id with
    | some s => .ok s
    | none => .error Err.submissionFailure

/-- Tests whether the second character list begins with the first. -/
def hasPrefixC : List Char → List Char → Bool
  | [], _ => true
  | _ :: _, [] => false
  | p :: ps, c :: cs => p == c && hasPrefixC ps cs

/-- Tests whether the first character list occurs contiguously in the second. -/
def hasSubC (pat : List Char) : List Char → Bool
  | [] => hasPrefixC pat []
  | c :: cs => hasPrefixC pat (c :: cs) || hasSubC pat cs

/-- Model of JavaScript `s.includes(pat)`. -/
def strIncludes (s pat : String) : Bool :=
  hasSubC pat.data s.data

/-- Embeds the duration quantization of `createVideoGenerationTask`: maps the
resolved model key and the requested duration (seconds) to the pair
`(durationMs, actualDuration)`.  The family tests run in source order:
`veo3`, then `sora2`, then `3.5_pro`, then the default family. -/
def videoDurationMs (model : String) (duration : Int) : Int × Int :=
  if strIncludes model "veo3" then (8000, 8)
  else if strIncludes model "sora2" then
    if duration = 12 then (12000, 12)
    else if duration = 8 then (8000, 8)
    else (4000, 4)
  else if strIncludes model "3.5_pro" then
    if duration = 12 then (12000, 12)
    else if duration = 10 then (10000, 10)
    else (5000, 5)
  else if duration = 10 then (10000, 10)
  else (5000, 5)

/-- Embeds the `supportsResolution` test of `createVideoGenerationTask`. -/
def supportsResolution (model : String) : Bool :=
  (strIncludes model "vgfm_3.0" || strIncludes model "vgfm_3.0_fast")
    && !(strIncludes model "_pro")

/-- The duration- and image-carrying fields of the `video_gen_inputs[0]` wire
object built by `createVideoGenerationTask`. -/
structure VideoGenInput where
  duration_ms : Int
  videoDuration : Int
  resolution : Option String
  first_frame_image : Option String
  end_frame_image : Option String
deriving DecidableEq

/-- Builds the modelled `video_gen_inputs[0]` fields: `duration_ms` is the
quantized milliseconds, `videoDuration` the quantized seconds placed in the
`sceneOption`, and `resolution` is included only when the model supports it. -/
def buildVideoGenInput (model : String) (duration : Int) (res : String)
    (ff ef : Option String) : VideoGenInput :=
  ⟨(videoDurationMs model duration).1, (videoDurationMs model duration).2,
    if supportsResolution model then some res else none, ff, ef⟩

instance {ε α : Type} [DecidableEq ε] [DecidableEq α] : DecidableEq (Except ε α)
  | .ok a, .ok b => decidable_of_iff (a = b) (by simp)
  | .error a, .error b => decidable_of_iff (a = b) (by simp)
  | .ok _, .error _ => .isFalse (by simp)
  | .error _, .ok _ => .isFalse (by simp)

/-- The outcome the underlying buffer-upload primitive would produce for one
image: a vendor asset id, or a thrown error with its message. -/
inductive UploadOutcome where
  | ok (id : String)
  | err (msg : String)
deriving DecidableEq

/-- The asset id of a successful outcome. -/
def okId : UploadOutcome → Option String
  | .ok id => some id
  | .err _ => none

/-- One entry of the video `filePaths` (or `files`) array: a falsy entry, or a
present entry together with the outcome its upload would produce. -/
inductive VideoImageInput where
  | falsy
  | given (o : UploadOutcome)
deriving DecidableEq

/-- The video upload loop of `createVideoGenerationTask`, carrying the current
index and the accumulated `uploadIDs`: a falsy entry is skipped with a log line, a
successful upload is appended when its id is truthy, and a thrown upload error is
fatal exactly at index `0` (re-thrown as the first-frame `APIException`) and is
only logged at every later index. -/
def videoUploadLoopAux : Nat → List VideoImageInput → List String → Except Err (List String)
  | _, [], acc => .ok acc
  | i, .falsy :: rest, acc => videoUploadLoopAux (i + 1) rest acc
  | i, .given (.ok id) :: rest, acc =>
    videoUploadLoopAux (i + 1) rest (if id = "" then acc else acc ++ [id])
  | i, .given (.err m) :: rest, acc =>
    if i = 0 then .error (Err.uploadFailure m)
    else videoUploadLoopAux (i + 1) rest acc

/-- The video upload loop started at index `0` with an empty `uploadIDs`. -/
def videoUploadLoop (ins : List VideoImageInput) : Except Err (List String) :=
  videoUploadLoopAux 0 ins []

/-- The truthy ids of the successful uploads, in input order. -/
def vSuccessIds (ins : List VideoImageInput) : List String :=
  ins.filterMap fun x =>
    match x with
    | .given (.ok id) => if id = "" then none else some id
    | _ => none

/-- Tests whether the first entry is a present entry whose upload throws. -/
def headIsErr : List VideoImageInput → Bool
  | .given (.err _) :: _ => true
  | _ => false

/-- The first-frame / end-frame slot assignment of `createVideoGenerationTask`:
`uploadIDs[0]` becomes the first frame and `uploadIDs[1]` the end frame, each
guarded by truthiness. -/
def videoFrames (ids : List String) : Option String × Option String :=
  if ids.length > 0 then (truthyStr ids[0]?, truthyStr ids[1]?)
  else (none, none)

/-- The observable outcome of one `createVideoGenerationTask` run: whether the
generation request was submitted, the collected `uploadIDs`, the frame slots, and
the returned history id or thrown error. -/
structure VideoRun where
  submitted : Bool
  uploadIds : List String
  firstFrame : Option String
  endFrame : Option String
  result : Except Err String
deriving DecidableEq

/-- Runs the modelled video task creation: the upload loop, then the frame slot
assignment, then submission and history-id extraction. -/
def videoTaskRun (ins : List VideoImageInput) (resp : Option AigcData) : VideoRun :=
  match videoUploadLoop ins with
  | .error e => ⟨false, [], none, none, .error e⟩
  | .ok ids =>
    let fr := videoFrames ids
    ⟨true, ids, fr.1, fr.2, submitExtractVideo resp⟩

/-- The observable outcome of one `createImageCompositionTask` run: how many
uploads were attempted, whether the generation request was submitted, the
uploaded asset ids in order, and the returned history id or thrown error. -/
structure CompositionRun where
  attempts : Nat
  submitted : Bool
  uploadedIds : List String
  result : Except Err String
deriving DecidableEq

/-- The composition upload loop of `createImageCompositionTask`: images are
uploaded strictly in order, each id is pushed, and the first thrown upload error
is re-thrown as an upload-failure `APIException`, attempting nothing further.
Returns the number of attempted uploads with the loop result. -/
def compositionUploadAux : List UploadOutcome → Nat × Except Err (List String)
  | [] => (0, .ok [])
  | .ok id :: rest =>
    let r := compositionUploadAux rest
    (r.1 + 1, match r.2 with
      | .ok ids => .ok (id :: ids)
      | .error e => .error e)
  | .err m :: _ => (1, .error (Err.uploadFailure m))

/-- Runs the modelled composition task creation: the sequential upload loop, then
submission and history-id extraction. -/
def compositionTaskRun (outcomes : List UploadOutcome) (resp : Option AigcData) :
    CompositionRun :=
  match compositionUploadAux outcomes with
  | (n, .error e) => ⟨n, false, [], .error e⟩
  | (n, .ok ids) => ⟨n, true, ids, submitExtractOpt resp⟩

/-- The image-count bound check of the `/v1/async/images/compositions` route
handler, applied to the caller-supplied image array before the controller runs. -/
def routeCompositionCheck (imageCount : Nat) : Except Err Unit :=
  if imageCount = 0 then .error (Err.validation "at least 1 input image required")
  else if imageCount > 10 then .error (Err.validation "at most 10 input images supported")
  else .ok ()

/-- The `/v1/async/images/compositions` route handler around the controller: the
bound check runs first, and only when it passes is `createImageCompositionTask`
invoked (so no upload is attempted on a bound failure). -/
def routeCompositionHandler (outcomes : List UploadOutcome) (resp : Option AigcData) :
    CompositionRun :=
  match routeCompositionCheck outcomes.length with
  | .error e => ⟨0, false, [], .error e⟩
  | .ok _ => compositionTaskRun outcomes resp

/-- The `file_paths` validator of the `/v1/async/videos/generations` route handler
for a present array: at most two entries pass. -/
def routeVideoFilePathsValid (n : Nat) : Bool :=
  n ≤ 2

/-- The uploaded-files bound check of the `/v1/async/videos/generations` route
handler. -/
def routeVideoFilesCheck (n : Nat) : Except Err Unit :=
  if n > 2 then .error (Err.validation "at most 2 image files can be uploaded")
  else .ok ()

theorem unesc_cons_of_ne (cs : List Char) (c : Char) (l : List Char)
    (h : unesc cs = c :: l) (hc : c ≠ '&') :
    ∃ cs', cs = c :: cs' ∧ l = unesc cs' := by
  rw [unesc.eq_def] at h
  split at h
  · exact absurd (List.cons.injEq .. ▸ h).1.symm hc
  · rename_i c' rest _
    exact ⟨rest, by simp_all [List.cons.injEq]⟩
  · simp at h

theorem headMatchesEsc_true (l : List Char) (h : headMatchesEsc l = true) :
    ∃ t, l = '\\' :: 'u' :: '0' :: '0' :: '2' :: '6' :: t := by
  rw [headMatchesEsc.eq_def] at h
  split at h
  · rename_i c1 c2 c3 c4 c5 c6 t
    simp only [Bool.and_eq_true, beq_iff_eq] at h
    obtain ⟨⟨⟨⟨⟨h1, h2⟩, h3⟩, h4⟩, h5⟩, h6⟩ := h
    subst h1 h2 h3 h4 h5 h6
    exact ⟨t, rfl⟩
  · exact absurd h (by simp)

theorem unesc_esc_cons (rest : List Char) :
    unesc ('\\' :: 'u' :: '0' :: '0' :: '2' :: '6' :: rest) = '&' :: unesc rest := rfl

theorem not_headMatchesEsc_unesc (cs : List Char) : headMatchesEsc (unesc cs) = false := by
  by_contra hcon
  rw [Bool.not_eq_false] at hcon
  obtain ⟨t, ht⟩ := headMatchesEsc_true _ hcon
  obtain ⟨cs1, hcs1, hl1⟩ := unesc_cons_of_ne cs '\\' _ ht (by decide)
  obtain ⟨cs2, hcs2, hl2⟩ := unesc_cons_of_ne cs1 'u' _ hl1.symm (by decide)
  obtain ⟨cs3, hcs3, hl3⟩ := unesc_cons_of_ne cs2 '0' _ hl2.symm (by decide)
  obtain ⟨cs4, hcs4, hl4⟩ := unesc_cons_of_ne cs3 '0' _ hl3.symm (by decide)
  obtain ⟨cs5, hcs5, hl5⟩ := unesc_cons_of_ne cs4 '2' _ hl4.symm (by decide)
  obtain ⟨cs6, hcs6, hl6⟩ := unesc_cons_of_ne cs5 '6' _ hl5.symm (by decide)
  subst hcs6
  subst hcs5
  subst hcs4
  subst hcs3
  subst hcs2
  subst hcs1
  rw [unesc_esc_cons] at ht
  exact absurd (List.cons.injEq .. ▸ ht).1 (by decide)

theorem unesc_tail (cs : List Char) (c : Char) (l : List Char) (h : unesc cs = c :: l) :
    ∃ cs', l = unesc cs' ∧ cs'.length < cs.length := by
  rw [unesc.eq_def] at h
  split at h
  · rename_i rest
    exact ⟨rest, (List.cons.injEq .. ▸ h).2.symm, by simp only [List.length_cons]; omega⟩
  · rename_i c' rest _
    exact ⟨rest, (List.cons.injEq .. ▸ h).2.symm, by simp only [List.length_cons]; omega⟩
  · simp at h

theorem hasEscSeq_unesc_bounded (n : Nat) :
    ∀ cs : List Char, cs.length ≤ n → hasEscSeq (unesc cs) = false := by
  induction n with
  | zero =>
    intro cs hlen
    have hnil : cs = [] := List.length_eq_zero.mp (Nat.le_zero.mp hlen)
    subst hnil
    rfl
  | succ n ih =>
    intro cs hlen
    cases hu : unesc cs with
    | nil => simp [hasEscSeq]
    | cons c l =>
      obtain ⟨cs', hl, hlt⟩ := unesc_tail cs c l hu
      have htail := ih cs' (by omega)
      have hhead := not_headMatchesEsc_unesc cs
      rw [hu] at hhead
      rw [show hasEscSeq (c :: l) = (headMatchesEsc (c :: l) || hasEscSeq l) from rfl,
        hhead, hl]
      simp [htail]

/-- Un-escaping leaves no occurrence of the escaped ampersand sequence behind. -/
theorem hasEscSeq_unesc (cs : List Char) : hasEscSeq (unesc cs) = false :=
  hasEscSeq_unesc_bounded cs.length cs (Nat.le_refl _)

theorem hasEscSeq_unescapeAmp (s : String) : hasEscSeq (unescapeAmp s).data = false :=
  hasEscSeq_unesc s.data

theorem truthyStr_some_eq (x : Option String) (u : String) (h : truthyStr x = some u) :
    x = some u := by
  cases x with
  | none => exact absurd h (by simp [truthyStr])
  | some s =>
    simp only [truthyStr] at h
    split at h
    · exact Option.noConfusion h
    · exact h

theorem truthyStr_ne (x : Option String) (u : String) (h : truthyStr x = some u) :
    u ≠ "" := by
  cases x with
  | none => exact absurd h (by simp [truthyStr])
  | some s =>
    simp only [truthyStr] at h
    split at h
    · exact Option.noConfusion h
    · rename_i hs
      cases h
      exact hs

/-- C1: for every video status query, the normalized status follows the decision
table of the spec: a missing history record yields `processing`; with a record,
raw status `20` yields `processing`, `10`/`30` yield `completed` exactly when a
video URL was extracted and `processing` otherwise, `50` yields `completed`
exactly when a video URL was extracted and `failed` otherwise, and a truthy
extracted video URL forces `completed` whatever the raw code. -/
theorem claim1_video_status_decision_table (regexMatch : Option String) (h : HistoryData) :
    (queryVideoTaskStatus regexMatch none).status = "processing"
    ∧ (jsTruthy (videoUrlOf regexMatch h) = true →
        (queryVideoTaskStatus regexMatch (some h)).status = "completed")
    ∧ (jsTruthy (videoUrlOf regexMatch h) = false →
        (h.status = 20 → (queryVideoTaskStatus regexMatch (some h)).status = "processing")
        ∧ ((h.status = 10 ∨ h.status = 30) →
            (queryVideoTaskStatus regexMatch (some h)).status = "processing")
        ∧ (h.status = 50 → (queryVideoTaskStatus regexMatch (some h)).status = "failed")) := by
  refine ⟨rfl, ?_, ?_⟩
  · intro hu
    simp [queryVideoTaskStatus, hu]
  · intro hu
    refine ⟨?_, ?_, ?_⟩
    · intro hs
      simp [queryVideoTaskStatus, hu, hs]
    · rintro (hs | hs) <;> simp [queryVideoTaskStatus, hu, hs]
    · intro hs
      simp [queryVideoTaskStatus, hu, hs]

theorem claim1_witness :
    (queryVideoTaskStatus none (some ⟨50, none, none, none⟩)).status = "failed"
    ∧ (queryVideoTaskStatus (some "https://v1-artist.vlabvod.com/a")
        (some ⟨50, none, none, none⟩)).status = "completed"
    ∧ (queryVideoTaskStatus none (some ⟨20, none, none, none⟩)).status = "processing" := by
  refine ⟨?_, ?_, ?_⟩
  · exact ((claim1_video_status_decision_table none ⟨50, none, none, none⟩).2.2
      (by decide)).2.2 rfl
  · exact (claim1_video_status_decision_table (some "https://v1-artist.vlabvod.com/a")
      ⟨50, none, none, none⟩).2.1 (by decide)
  · exact ((claim1_video_status_decision_table none ⟨20, none, none, none⟩).2.2
      (by decide)).1 rfl

/-- C9: for an existing history record whose raw status code is none of 10, 20,
30, 50 and from which no strategy extracts a truthy video URL, the normalized
status returned to the caller is the literal string `unknown`, which lies outside
the documented status set. -/
theorem claim9_unknown_status (regexMatch : Option String) (h : HistoryData)
    (hs : h.status ≠ 10 ∧ h.status ≠ 20 ∧ h.status ≠ 30 ∧ h.status ≠ 50)
    (hu : jsTruthy (videoUrlOf regexMatch h) = false) :
    (queryVideoTaskStatus regexMatch (some h)).status = "unknown"
    ∧ "unknown" ∉ (["processing", "completed", "failed"] : List String) := by
  obtain ⟨h10, h20, h30, h50⟩ := hs
  refine ⟨?_, by decide⟩
  simp [queryVideoTaskStatus, hu, h10, h20, h30, h50]

theorem claim9_witness :
    (queryVideoTaskStatus none (some ⟨40, none, none, none⟩)).status = "unknown" :=
  (claim9_unknown_status none ⟨40, none, none, none⟩ (by decide) (by decide)).1

/-- C2: the effective duration placed in the video payload is exactly the
family-table value for the resolved model, the family tests running in table
order: a `veo3` model always gets 8s/8000ms; otherwise a `sora2` model gets 12s
for 12, 8s for 8, 4s otherwise; otherwise a `3.5_pro` model gets 12s for 12, 10s
for 10, 5s otherwise; every remaining model gets 10s for 10 and 5s otherwise.
`duration_ms` and the `sceneOption` seconds both come from this quantization. -/
theorem claim2_duration_family_table (model : String) (d : Int) (res : String)
    (ff ef : Option String) :
    (strIncludes model "veo3" = true → videoDurationMs model d = (8000, 8))
    ∧ (strIncludes model "veo3" = false → strIncludes model "sora2" = true →
        (d = 12 → videoDurationMs model d = (12000, 12))
        ∧ (d = 8 → videoDurationMs model d = (8000, 8))
        ∧ (d ≠ 12 → d ≠ 8 → videoDurationMs model d = (4000, 4)))
    ∧ (strIncludes model "veo3" = false → strIncludes model "sora2" = false →
        strIncludes model "3.5_pro" = true →
        (d = 12 → videoDurationMs model d = (12000, 12))
        ∧ (d = 10 → videoDurationMs model d = (10000, 10))
        ∧ (d ≠ 12 → d ≠ 10 → videoDurationMs model d = (5000, 5)))
    ∧ (strIncludes model "veo3" = false → strIncludes model "sora2" = false →
        strIncludes model "3.5_pro" = false →
        (d = 10 → videoDurationMs model d = (10000, 10))
        ∧ (d ≠ 10 → videoDurationMs model d = (5000, 5)))
    ∧ (buildVideoGenInput model d res ff ef).duration_ms = (videoDurationMs model d).1
    ∧ (buildVideoGenInput model d res ff ef).videoDuration = (videoDurationMs model d).2 := by
  refine ⟨?_, ?_, ?_, ?_, rfl, rfl⟩
  · intro h1
    simp [videoDurationMs, h1]
  · intro h1 h2
    refine ⟨?_, ?_, ?_⟩ <;> intro hd
    · simp [videoDurationMs, h1, h2, hd]
    · simp [videoDurationMs, h1, h2, hd]
    · intro hd'
      simp [videoDurationMs, h1, h2, hd, hd']
  · intro h1 h2 h3
    refine ⟨?_, ?_, ?_⟩ <;> intro hd
    · simp [videoDurationMs, h1, h2, h3, hd]
    · simp [videoDurationMs, h1, h2, h3, hd]
    · intro hd'
      simp [videoDurationMs, h1, h2, h3, hd, hd']
  · intro h1 h2 h3
    refine ⟨?_, ?_⟩ <;> intro hd
    · simp [videoDurationMs, h1, h2, h3, hd]
    · simp [videoDurationMs, h1, h2, h3, hd]

theorem claim2_witness :
    videoDurationMs "dreamina_ic_generate_video_model_veo3" 10 = (8000, 8)
    ∧ videoDurationMs "dreamina_sora2_model" 8 = (8000, 8)
    ∧ videoDurationMs "dreamina_vgfm_3.5_pro" 12 = (12000, 12)
    ∧ videoDurationMs "dreamina_ic_generate_video_model_vgfm_3.0" 7 = (5000, 5) := by
  refine ⟨?_, ?_, ?_, ?_⟩
  · exact (claim2_duration_family_table "dreamina_ic_generate_video_model_veo3" 10 "720p"
      none none).1 (by decide)
  · exact (((claim2_duration_family_table "dreamina_sora2_model" 8 "720p" none none).2.1
      (by decide) (by decide)).2.1 rfl)
  · exact (((claim2_duration_family_table "dreamina_vgfm_3.5_pro" 12 "720p" none none).2.2.1
      (by decide) (by decide) (by decide)).1 rfl)
  · exact (((claim2_duration_family_table "dreamina_ic_generate_video_model_vgfm_3.0" 7 "720p"
      none none).2.2.2.1 (by decide) (by decide) (by decide)).2 (by decide))

theorem videoUploadLoopAux_pos (ins : List VideoImageInput) :
    ∀ (i : Nat) (acc : List String),
      videoUploadLoopAux (i + 1) ins acc = .ok (acc ++ vSuccessIds ins) := by
  induction ins with
  | nil =>
    intro i acc
    simp [videoUploadLoopAux, vSuccessIds]
  | cons x rest ih =>
    intro i acc
    cases x with
    | falsy =>
      rw [videoUploadLoopAux, ih (i + 1) acc]
      simp [vSuccessIds]
    | given o =>
      cases o with
      | ok id =>
        rw [videoUploadLoopAux, ih (i + 1) _]
        by_cases hid : id = "" <;> simp [vSuccessIds, hid]
      | err m =>
        rw [videoUploadLoopAux]
        simp only [Nat.succ_ne_zero, if_false]
        rw [ih (i + 1) acc]
        simp [vSuccessIds]

theorem videoUploadLoop_ok (ins : List VideoImageInput) (hne : headIsErr ins = false) :
    videoUploadLoop ins = .ok (vSuccessIds ins) := by
  cases ins with
  | nil => rfl
  | cons x rest =>
    cases x with
    | falsy =>
      rw [videoUploadLoop, videoUploadLoopAux, videoUploadLoopAux_pos rest 0 []]
      simp [vSuccessIds]
    | given o =>
      cases o with
      | ok id =>
        rw [videoUploadLoop, videoUploadLoopAux, videoUploadLoopAux_pos rest 0 _]
        by_cases hid : id = "" <;> simp [vSuccessIds, hid]
      | err m => exact absurd hne (by simp [headIsErr])

/-- C4: in the video upload loop, a thrown upload failure at index 0 (the first
frame) aborts the task at once with the first-frame upload-failure error, while a
thrown upload failure at any later index never aborts: the run still submits and
its `uploadIDs` are exactly the truthy ids of the successful uploads, the failed
image simply missing. -/
theorem claim4_first_frame_upload_fatality (m : String) (rest ins : List VideoImageInput)
    (resp : Option AigcData) :
    videoTaskRun (VideoImageInput.given (UploadOutcome.err m) :: rest) resp
      = ⟨false, [], none, none, .error (Err.uploadFailure m)⟩
    ∧ (headIsErr ins = false →
        (videoTaskRun ins resp).submitted = true
        ∧ (videoTaskRun ins resp).uploadIds = vSuccessIds ins) := by
  constructor
  · rfl
  · intro hne
    rw [videoTaskRun, videoUploadLoop_ok ins hne]
    exact ⟨rfl, rfl⟩

theorem claim4_witness :
    videoTaskRun [VideoImageInput.given (UploadOutcome.err "net down")] none
      = ⟨false, [], none, none, .error (Err.uploadFailure "net down")⟩
    ∧ (videoTaskRun [VideoImageInput.given (UploadOutcome.ok "a"),
        VideoImageInput.given (UploadOutcome.err "net down")] (some ⟨some "hid"⟩)).submitted
        = true
    ∧ (videoTaskRun [VideoImageInput.given (UploadOutcome.ok "a"),
        VideoImageInput.given (UploadOutcome.err "net down")] (some ⟨some "hid"⟩)).uploadIds
        = ["a"] := by
  have h := claim4_first_frame_upload_fatality "net down" []
    [VideoImageInput.given (UploadOutcome.ok "a"),
      VideoImageInput.given (UploadOutcome.err "net down")] (some ⟨some "hid"⟩)
  have h0 := claim4_first_frame_upload_fatality "net down" [] [] none
  exact ⟨h0.1, (h.2 (by decide)).1, ((h.2 (by decide)).2).trans (by decide)⟩

/-- C10: a falsy entry in `filePaths` is skipped without raising — a loop whose
first entry is falsy can never abort, whatever the later entries do — and when the
index-0 entry is falsy while the index-1 entry uploads successfully, that second
image becomes the sole element of `uploadIDs` and is assigned to the first-frame
slot (the end-frame slot stays empty). -/
theorem claim10_falsy_first_entry (rest : List VideoImageInput) (id : String)
    (resp : Option AigcData) (hid : id ≠ "") :
    videoUploadLoop (VideoImageInput.falsy :: rest) = .ok (vSuccessIds rest)
    ∧ (videoTaskRun [VideoImageInput.falsy,
        VideoImageInput.given (UploadOutcome.ok id)] resp).uploadIds = [id]
    ∧ (videoTaskRun [VideoImageInput.falsy,
        VideoImageInput.given (UploadOutcome.ok id)] resp).firstFrame = some id
    ∧ (videoTaskRun [VideoImageInput.falsy,
        VideoImageInput.given (UploadOutcome.ok id)] resp).endFrame = none
    ∧ (videoTaskRun [VideoImageInput.falsy,
        VideoImageInput.given (UploadOutcome.ok id)] resp).submitted = true := by
  have hloop : videoUploadLoop (VideoImageInput.falsy :: rest) = .ok (vSuccessIds rest) := by
    rw [videoUploadLoop, videoUploadLoopAux, videoUploadLoopAux_pos rest 0 []]
    simp
  have hrun : videoTaskRun [VideoImageInput.falsy,
      VideoImageInput.given (UploadOutcome.ok id)] resp
      = ⟨true, [id], some id, none, submitExtractVideo resp⟩ := by
    rw [videoTaskRun, videoUploadLoop, videoUploadLoopAux, videoUploadLoopAux,
      videoUploadLoopAux]
    simp [hid, videoFrames, truthyStr]
  rw [hrun]
  exact ⟨hloop, rfl, rfl, rfl, rfl⟩

theorem claim10_witness :
    videoUploadLoop [VideoImageInput.falsy, VideoImageInput.given (UploadOutcome.err "x")]
      = .ok []
    ∧ (videoTaskRun [VideoImageInput.falsy,
        VideoImageInput.given (UploadOutcome.ok "b")] none).uploadIds = ["b"]
    ∧ (videoTaskRun [VideoImageInput.falsy,
        VideoImageInput.given (UploadOutcome.ok "b")] none).firstFrame = some "b"
    ∧ (videoTaskRun [VideoImageInput.falsy,
        VideoImageInput.given (UploadOutcome.ok "b")] none).endFrame = none := by
  have h := claim10_falsy_first_entry [VideoImageInput.given (UploadOutcome.err "x")] "b"
    none (by decide)
  exact ⟨h.1.trans (by decide), h.2.1, h.2.2.1, h.2.2.2.1⟩

theorem compositionUploadAux_all_ok (outcomes : List UploadOutcome)
    (hall : ∀ o ∈ outcomes, (okId o).isSome = true) :
    compositionUploadAux outcomes = (outcomes.length, .ok (outcomes.filterMap okId)) := by
  induction outcomes with
  | nil => rfl
  | cons x rest ih =>
    cases x with
    | ok id =>
      have h := ih (fun o ho => hall o (List.mem_cons_of_mem _ ho))
      simp only [compositionUploadAux]
      rw [h]
      simp [okId, List.filterMap_cons]
    | err m =>
      exact absurd (hall _ (List.mem_cons_self _ _)) (by simp [okId])

theorem compositionUploadAux_first_err (outcomes : List UploadOutcome) (k : Nat) (m : String)
    (hk : outcomes[k]? = some (UploadOutcome.err m))
    (hpre : ∀ j, j < k → ((outcomes[j]?).bind okId).isSome = true) :
    compositionUploadAux outcomes = (k + 1, .error (Err.uploadFailure m)) := by
  induction outcomes generalizing k with
  | nil => simp at hk
  | cons x rest ih =>
    cases k with
    | zero =>
      simp only [List.getElem?_cons_zero, Option.some.injEq] at hk
      subst hk
      rfl
    | succ k' =>
      have hx := hpre 0 (Nat.succ_pos _)
      cases x with
      | err m' => simp [okId] at hx
      | ok id =>
        have h := ih k' (by simpa using hk) (fun j hj => by
          have hj' := hpre (j + 1) (by omega)
          simpa using hj')
        simp only [compositionUploadAux]
        rw [h]

/-- C5: the composition upload loop uploads the images one at a time in exactly
the caller-supplied order — when every upload succeeds, the i-th uploaded asset id
is the i-th input's id and all images are attempted — and the first thrown upload
failure, at any index `k`, aborts the whole task immediately with an
upload-failure error: exactly `k + 1` uploads are attempted (none after the
failure) and no generation request is submitted. -/
theorem claim5_composition_order_and_abort (outcomes : List UploadOutcome)
    (resp : Option AigcData) (k : Nat) (m : String) :
    ((∀ o ∈ outcomes, (okId o).isSome = true) →
      compositionTaskRun outcomes resp
        = ⟨outcomes.length, true, outcomes.filterMap okId, submitExtractOpt resp⟩)
    ∧ (outcomes[k]? = some (UploadOutcome.err m) →
        (∀ j, j < k → ((outcomes[j]?).bind okId).isSome = true) →
        compositionTaskRun outcomes resp = ⟨k + 1, false, [], .error (Err.uploadFailure m)⟩) := by
  constructor
  · intro hall
    rw [compositionTaskRun, compositionUploadAux_all_ok outcomes hall]
  · intro hk hpre
    rw [compositionTaskRun, compositionUploadAux_first_err outcomes k m hk hpre]

theorem claim5_witness :
    compositionTaskRun [UploadOutcome.ok "a", UploadOutcome.ok "b"] (some ⟨some "hid"⟩)
      = ⟨2, true, ["a", "b"], .ok "hid"⟩
    ∧ compositionTaskRun [UploadOutcome.ok "a", UploadOutcome.err "net down",
        UploadOutcome.ok "c"] (some ⟨some "hid"⟩)
      = ⟨2, false, [], .error (Err.uploadFailure "net down")⟩ := by
  have h1 := (claim5_composition_order_and_abort [UploadOutcome.ok "a", UploadOutcome.ok "b"]
    (some ⟨some "hid"⟩) 0 "").1 (by decide)
  have h2 := (claim5_composition_order_and_abort [UploadOutcome.ok "a",
    UploadOutcome.err "net down", UploadOutcome.ok "c"] (some ⟨some "hid"⟩) 1 "net down").2
    (by decide) (by decide)
  exact ⟨h1.trans (by decide), h2⟩

/-- C3 counterexample: calling the composition controller directly with 11 images
(all of whose uploads succeed) raises no bound failure at all — all 11 uploads are
attempted and the generation request is submitted — so the generation-task layer
does not re-validate the image-count bounds and no failure precedes the uploads. -/
theorem claim3_counterexample :
    (compositionTaskRun (List.replicate 11 (UploadOutcome.ok "x"))
      (some ⟨some "hid"⟩)).attempts = 11
    ∧ (compositionTaskRun (List.replicate 11 (UploadOutcome.ok "x"))
        (some ⟨some "hid"⟩)).submitted = true
    ∧ (compositionTaskRun (List.replicate 11 (UploadOutcome.ok "x"))
        (some ⟨some "hid"⟩)).result = .ok "hid" := by
  decide

/-- C3 amended: the image-count bounds are enforced by the routing layer, before
the controller runs: a composition request with 0 or more than 10 images is
rejected there with a validation error and zero uploads attempted, and a video
request with more than 2 file paths (or uploaded files) fails route validation;
the generation-task layer itself performs no image-count re-validation — called
directly with out-of-bound image counts it attempts every upload and submits. -/
theorem claim3_amended_route_bounds (outcomes : List UploadOutcome)
    (resp : Option AigcData) (n : Nat) :
    (outcomes.length = 0 ∨ outcomes.length > 10 →
      (routeCompositionHandler outcomes resp).attempts = 0
      ∧ (routeCompositionHandler outcomes resp).submitted = false
      ∧ ∃ msg, (routeCompositionHandler outcomes resp).result = .error (Err.validation msg))
    ∧ (n > 2 →
        routeVideoFilePathsValid n = false
        ∧ ∃ msg, routeVideoFilesCheck n = .error (Err.validation msg))
    ∧ ((∀ o ∈ outcomes, (okId o).isSome = true) →
        (compositionTaskRun outcomes resp).attempts = outcomes.length
        ∧ (compositionTaskRun outcomes resp).submitted = true) := by
  refine ⟨?_, ?_, ?_⟩
  · rintro (h | h)
    · rw [routeCompositionHandler, routeCompositionCheck, h]
      exact ⟨rfl, rfl, "at least 1 input image required", rfl⟩
    · have h0 : outcomes.length ≠ 0 := by omega
      rw [routeCompositionHandler, routeCompositionCheck, if_neg h0, if_pos h]
      exact ⟨rfl, rfl, "at most 10 input images supported", rfl⟩
  · intro h
    constructor
    · simp only [routeVideoFilePathsValid, decide_eq_false_iff_not]
      omega
    · rw [routeVideoFilesCheck, if_pos h]
      exact ⟨_, rfl⟩
  · intro hall
    rw [compositionTaskRun, compositionUploadAux_all_ok outcomes hall]
    exact ⟨rfl, rfl⟩

theorem claim3_amended_witness :
    (routeCompositionHandler (List.replicate 11 (UploadOutcome.ok "x")) none).attempts = 0
    ∧ (routeCompositionHandler [] none).submitted = false
    ∧ routeVideoFilePathsValid 3 = false
    ∧ (compositionTaskRun (List.replicate 11 (UploadOutcome.ok "x")) none).attempts = 11 := by
  have h11 := claim3_amended_route_bounds (List.replicate 11 (UploadOutcome.ok "x")) none 3
  have h0 := claim3_amended_route_bounds [] none 3
  refine ⟨(h11.1 (by decide)).1, (h0.1 (by decide)).2.1, (h11.2.1 (by decide)).1, ?_⟩
  exact ((h11.2.2 (by decide)).1).trans (by decide)

/-- C6: whenever the submission response's `aigc_data` carries no truthy
`history_record_id` (the field is absent or the empty string), both history-id
extractions — the optional-chaining one used by the two image task creators and
the strict one used by the video task creator — raise the record-id-missing
submission failure, and neither extraction can ever return a falsy history id. -/
theorem claim6_submission_id_required (a : AigcData) (o : Option AigcData) (s : String) :
    (a.history_record_id = none ∨ a.history_record_id = some "" →
      submitExtractOpt (some a) = .error Err.submissionFailure
      ∧ submitExtractVideo (some a) = .error Err.submissionFailure)
    ∧ (submitExtractOpt o = .ok s → s ≠ "")
    ∧ (submitExtractVideo o = .ok s → s ≠ "") := by
  refine ⟨?_, ?_, ?_⟩
  · rintro (h | h) <;>
      simp [submitExtractOpt, submitExtractVideo, truthyStr, h]
  · intro h
    simp only [submitExtractOpt] at h
    split at h
    · rename_i u hu
      cases h
      exact truthyStr_ne _ _ hu
    · exact Except.noConfusion h
  · intro h
    simp only [submitExtractVideo] at h
    split at h
    · exact Except.noConfusion h
    · split at h
      · rename_i u hu
        cases h
        exact truthyStr_ne _ _ hu
      · exact Except.noConfusion h

theorem claim6_witness :
    submitExtractOpt (some ⟨none⟩) = .error Err.submissionFailure
    ∧ submitExtractVideo (some ⟨some ""⟩) = .error Err.submissionFailure
    ∧ ("hid" : String) ≠ "" := by
  have h1 := claim6_submission_id_required ⟨none⟩ (some ⟨some "hid"⟩) "hid"
  have h2 := claim6_submission_id_required ⟨some ""⟩ none ""
  exact ⟨(h1.1 (Or.inl rfl)).1, (h2.1 (Or.inr rfl)).2, h1.2.1 (by decide)⟩

theorem extractInfo_webp_sizes (item : ResponseItem) :
    (extractImageUrlInfo item).webp_sizes
      = buildWebpSizes ((item.common_attr.bind fun ca => ca.cover_url_map).getD []) := by
  simp only [extractImageUrlInfo]
  cases hcm : item.common_attr.bind fun ca => ca.cover_url_map with
  | none => simp [buildWebpSizes]
  | some m => simp

theorem extractInfo_webp_long (item : ResponseItem) :
    (extractImageUrlInfo item).webp_long
      = pickWebpLong normalSizeKeys (extractImageUrlInfo item).webp_sizes := by
  simp only [extractImageUrlInfo]
  cases hcm : item.common_attr.bind fun ca => ca.cover_url_map with
  | none =>
    simp only []
    decide
  | some m => simp

theorem extractInfo_png (item : ResponseItem) :
    (extractImageUrlInfo item).png = extractImageUrl item := by
  simp only [extractImageUrlInfo, extractImageUrl]
  cases hcm : item.common_attr.bind fun ca => ca.cover_url_map with
  | none => rfl
  | some m => rfl

theorem extractInfo_webp (item : ResponseItem) :
    (extractImageUrlInfo item).webp
      = match truthyStr (item.common_attr.bind fun ca => ca.cover_url) with
        | some u => some (unescapeAmp u)
        | none => none := by
  simp only [extractImageUrlInfo]
  cases hcm : item.common_attr.bind fun ca => ca.cover_url_map with
  | none => rfl
  | some m => rfl

theorem assocLookup_mem (k v : String) (l : List (String × String))
    (h : assocLookup k l = some v) : (k, v) ∈ l := by
  induction l with
  | nil => exact absurd h (by simp [assocLookup])
  | cons kv rest ih =>
    obtain ⟨k', v'⟩ := kv
    simp only [assocLookup] at h
    split at h
    · rename_i heq
      cases h
      subst heq
      exact List.mem_cons_self _ _
    · exact List.mem_cons_of_mem _ (ih h)

theorem webpSizes_noEsc (coverMap : List (String × String)) (kv : String × String)
    (h : kv ∈ buildWebpSizes coverMap) : hasEscSeq kv.2.data = false := by
  obtain ⟨a, _, hfa⟩ := List.mem_filterMap.mp h
  by_cases h2 : a.2 = ""
  · simp [h2] at hfa
  · simp only [h2, if_false, Option.some.injEq] at hfa
    rw [← hfa]
    exact hasEscSeq_unescapeAmp a.2

theorem pickWebpLong_first (pre : List String) (k : String) (post : List String)
    (sizes : List (String × String)) (v : String)
    (hpre : ∀ k' ∈ pre, truthyStr (assocLookup k' sizes) = none)
    (hk : truthyStr (assocLookup k sizes) = some v) :
    pickWebpLong (pre ++ k :: post) sizes = some v := by
  induction pre with
  | nil => simp only [List.nil_append, pickWebpLong, hk]
  | cons p pre' ih =>
    have hp := hpre p (List.mem_cons_self _ _)
    simp only [List.cons_append, pickWebpLong, hp]
    exact ih fun k' hk' => hpre k' (List.mem_cons_of_mem _ hk')

theorem pickWebpLong_mem (ks : List String) (sizes : List (String × String)) (v : String)
    (h : pickWebpLong ks sizes = some v) : ∃ k, (k, v) ∈ sizes := by
  induction ks with
  | nil => exact absurd h (by simp [pickWebpLong])
  | cons k ks' ih =>
    simp only [pickWebpLong] at h
    split at h
    · rename_i u hu
      cases h
      exact ⟨k, assocLookup_mem _ _ _ (truthyStr_some_eq _ _ hu)⟩
    · exact ih h

/-- C7: `extractImageUrlInfo` chooses `webp_long` from the size map by trying the
priority keys `2400`, `1080`, `720`, `480`, `360` in order and taking the first
one present (with a truthy entry), and every URL string it returns — `png`,
`webp`, `webp_long` and each `webp_sizes` entry — has the vendor's escaped
ampersand sequence replaced, so none of them contains that sequence. -/
theorem claim7_webp_long_priority_and_unescape (item : ResponseItem)
    (pre post : List String) (k v u : String) (kv : String × String) :
    (normalSizeKeys = pre ++ k :: post →
      (∀ k' ∈ pre, truthyStr (assocLookup k' (extractImageUrlInfo item).webp_sizes) = none) →
      truthyStr (assocLookup k (extractImageUrlInfo item).webp_sizes) = some v →
      (extractImageUrlInfo item).webp_long = some v)
    ∧ ((extractImageUrlInfo item).png = some u → hasEscSeq u.data = false)
    ∧ ((extractImageUrlInfo item).webp = some u → hasEscSeq u.data = false)
    ∧ ((extractImageUrlInfo item).webp_long = some u → hasEscSeq u.data = false)
    ∧ (kv ∈ (extractImageUrlInfo item).webp_sizes → hasEscSeq kv.2.data = false) := by
  refine ⟨?_, ?_, ?_, ?_, ?_⟩
  · intro hkeys hpre hk
    rw [extractInfo_webp_long, hkeys]
    exact pickWebpLong_first pre k post _ v hpre hk
  · intro hpng
    rw [extractInfo_png] at hpng
    simp only [extractImageUrl] at hpng
    split at hpng
    · rename_i w _
      cases hpng
      exact hasEscSeq_unescapeAmp w
    · exact Option.noConfusion hpng
  · intro hwebp
    rw [extractInfo_webp] at hwebp
    split at hwebp
    · rename_i w _
      cases hwebp
      exact hasEscSeq_unescapeAmp w
    · exact Option.noConfusion hwebp
  · intro hlong
    rw [extractInfo_webp_long] at hlong
    obtain ⟨k', hmem⟩ := pickWebpLong_mem _ _ _ hlong
    rw [extractInfo_webp_sizes] at hmem
    exact webpSizes_noEsc _ (k', u) hmem
  · intro hmem
    rw [extractInfo_webp_sizes] at hmem
    exact webpSizes_noEsc _ kv hmem

theorem claim7_witness :
    (extractImageUrlInfo ⟨some ⟨[⟨some "p\\u0026q"⟩]⟩,
      some ⟨none, some [("720", "a"), ("360", "b")]⟩⟩).webp_long = some "a"
    ∧ hasEscSeq ("p&q" : String).data = false := by
  have h := claim7_webp_long_priority_and_unescape
    ⟨some ⟨[⟨some "p\\u0026q"⟩]⟩, some ⟨none, some [("720", "a"), ("360", "b")]⟩⟩
    ["2400", "1080"] ["480", "360"] "720" "a" "p&q" ("720", "a")
  exact ⟨h.1 rfl (by decide) (by decide), h.2.1 (by decide)⟩

/-- C8 counterexample: for a history record with status 50 and no `item_list`,
`queryImageTaskStatus` returns normally, but its `results` field is `null`
(`none`), not an empty result list — refuting the claim that the absent-field
case yields an empty result list. -/
theorem claim8_counterexample :
    queryImageTaskStatus (some ⟨50, none, none⟩) = .ok ⟨50, none, 0, none⟩
    ∧ ¬ ∃ r : ImageStatusResult,
        queryImageTaskStatus (some ⟨50, none, none⟩) = .ok r ∧ r.results = some [] := by
  refine ⟨rfl, ?_⟩
  rintro ⟨r, h1, h2⟩
  have h0 : queryImageTaskStatus (some ⟨50, none, none⟩) = .ok ⟨50, none, 0, none⟩ := rfl
  rw [h0] at h1
  injection h1 with h1
  rw [← h1] at h2
  exact Option.noConfusion h2

/-- C8 amended: `queryImageTaskStatus` raises a hard not-found error when the
vendor response has no record for the queried id; when the record exists but the
`item_list` or the per-item image-URL fields are absent, it returns normally with
a `null` `results` field (not an error, and not an empty list). -/
theorem claim8_amended_null_results (t : ImageTaskData) (l : List ResponseItem) :
    queryImageTaskStatus none = .error Err.notFound
    ∧ (t.item_list = none →
        queryImageTaskStatus (some t) = .ok ⟨t.status, t.fail_code, 0, none⟩)
    ∧ (t.item_list = some l → extractImageUrls l = [] →
        queryImageTaskStatus (some t) = .ok ⟨t.status, t.fail_code, l.length, none⟩) := by
  refine ⟨rfl, ?_, ?_⟩
  · intro h
    simp [queryImageTaskStatus, h]
  · intro h hurls
    cases l with
    | nil => simp [queryImageTaskStatus, h]
    | cons it rest =>
      by_cases him : it.image.isSome
      · simp [queryImageTaskStatus, h, him, hurls]
      · simp [queryImageTaskStatus, h, him]

theorem claim8_amended_witness :
    queryImageTaskStatus (some ⟨50, some 2, none⟩) = .ok ⟨50, some 2, 0, none⟩
    ∧ queryImageTaskStatus none = .error Err.notFound := by
  have h := claim8_amended_null_results ⟨50, some 2, none⟩ []
  exact ⟨h.2.1 rfl, h.1⟩

end JimengSpec
